import Mathlib

/-!
Shallow embedding in Lean 4 of the numerical fitting core of
`meas_extensions_multiShapelet`, together with proofs about its behaviour.

The embedding covers:

* `PackedIndex` — the packed triangular index iterator of
  `include/lsst/afw/math/shapelets/HermiteEvaluator.h`;
* `ModelInputHandler` — the pixel-sample extraction of
  `src/multiShapelet/ModelInputHandler.cc` (footprints, clipping, masking,
  weighting);
* `GaussianModelBuilder` — the Gaussian model and its sparse analytic
  derivative of `src/GaussianModelBuilder.cc`.

Machine doubles are modelled as exact real numbers `ℝ`; machine `int`s as
`Int`.  External `afw` collaborators (footprint clipping, mask intersection,
array flattening) are modelled by their documented boundary semantics, which
the specification fixes at the interface.
-/

namespace MultiShapelet

/-! ### PackedIndex (HermiteEvaluator.h, lines 51–82)

The C++ class holds four `int` fields `_n, _i, _x, _y`; `operator++` executes
`++_i; if (--_y < 0) { _x = 0; _y = ++_n; } else { ++_x; }`. -/

structure PackedIndex where
  n : Int
  i : Int
  x : Int
  y : Int
  deriving Repr, DecidableEq

namespace PackedIndex

/-- `computeOffset(order) = order*(order+1)/2` (HermiteEvaluator.h line 54). -/
def computeOffset (order : Int) : Int := order * (order + 1) / 2

/-- `computeIndex(x,y) = computeOffset(x+y) + x` (HermiteEvaluator.h line 55). -/
def computeIndex (x y : Int) : Int := computeOffset (x + y) + x

/-- The default constructor `PackedIndex() : _n(0), _i(0), _x(0), _y(0)`. -/
def init : PackedIndex := ⟨0, 0, 0, 0⟩

/-- `operator++`: increment `i`; decrement `y`, and if it went negative start
the next order at `x = 0`, `y = n+1`; otherwise increment `x`. -/
def incr (s : PackedIndex) : PackedIndex :=
  if s.y - 1 < 0 then
    { n := s.n + 1, i := s.i + 1, x := 0, y := s.n + 1 }
  else
    { n := s.n, i := s.i + 1, x := s.x + 1, y := s.y - 1 }

/-- The state the iterator reaches inside order `n` at x-position `x ≤ n`. -/
def stateAt (n x : Nat) : PackedIndex :=
  ⟨n, computeOffset n + x, x, (n : Int) - x⟩

/-- The list of the first `k` states of the iteration, starting from `init`. -/
def statesList (k : Nat) : List PackedIndex :=
  (List.range k).map (fun j => incr^[j] init)

/-- Number of packed indices for a basis truncated at order `M`. -/
def numIndices (M : Nat) : Nat := (M + 1) * (M + 2) / 2

/-- The canonical enumeration of `(x, y)` pairs with `x + y ≤ M`: orders
`0, 1, …, M` in turn; within order `n`, `x` runs from `0` to `n` while
`y = n - x` runs down from `n` to `0`. -/
def canonicalPairs (M : Nat) : List (Int × Int) :=
  (List.range (M + 1)).flatMap
    (fun n => (List.range (n + 1)).map (fun x => (Int.ofNat x, (n : Int) - Int.ofNat x)))

end PackedIndex

end MultiShapelet

namespace MultiShapelet.PackedIndex

theorem computeOffset_nonneg (n : Nat) : 0 ≤ computeOffset n := by
  have h : (0 : Int) ≤ (n : Int) * (n + 1) := by positivity
  exact Int.ediv_nonneg h (by norm_num)

theorem computeOffset_succ (n : Nat) :
    computeOffset ((n : Int) + 1) = computeOffset n + (n + 1) := by
  unfold computeOffset
  obtain ⟨m, hm⟩ := Int.even_mul_succ_self (n : Int)
  have h3 : ((n : Int) + 1) * ((n : Int) + 1 + 1) =
      (n : Int) * ((n : Int) + 1) + 2 * ((n : Int) + 1) := by ring
  omega

theorem incr_stateAt_mid (n x : Nat) (h : x < n) :
    incr (stateAt n x) = stateAt n (x + 1) := by
  unfold incr stateAt
  have hy : ¬ ((n : Int) - x - 1 < 0) := by omega
  simp only [hy, if_false, mk.injEq]
  refine ⟨trivial, ?_, ?_, ?_⟩ <;> push_cast <;> ring

theorem incr_stateAt_last (n : Nat) :
    incr (stateAt n n) = stateAt (n + 1) 0 := by
  unfold incr stateAt
  have hy : ((n : Int) - n - 1 < 0) := by omega
  simp only [hy, if_true, mk.injEq]
  have hoff := computeOffset_succ n
  refine ⟨?_, ?_, ?_, ?_⟩
  · push_cast; ring
  · push_cast; rw [hoff]; ring
  · norm_num
  · push_cast; ring

theorem iterate_stateAt_row (n : Nat) : ∀ j x : Nat, x + j ≤ n →
    incr^[j] (stateAt n x) = stateAt n (x + j) := by
  intro j
  induction j with
  | zero => intro x _; simp
  | succ k ih =>
    intro x hx
    rw [Function.iterate_succ_apply, incr_stateAt_mid n x (by omega)]
    have := ih (x + 1) (by omega)
    rw [this]
    congr 1
    omega

theorem init_eq_stateAt : init = stateAt 0 0 := by
  unfold init stateAt computeOffset
  norm_num

theorem iterate_offset (n : Nat) :
    incr^[(n * (n + 1)) / 2] init = stateAt n 0 := by
  induction n with
  | zero => simpa using init_eq_stateAt.symm
  | succ k ih =>
    have hstep : (k + 1) * (k + 1 + 1) / 2 = k * (k + 1) / 2 + (k + 1) := by
      have h2 : (k + 1) * (k + 1 + 1) = k * (k + 1) + 2 * (k + 1) := by ring
      omega
    rw [hstep, Nat.add_comm, Function.iterate_add_apply, ih]
    calc incr^[k + 1] (stateAt k 0)
        = incr (incr^[k] (stateAt k 0)) := by rw [Function.iterate_succ_apply']
      _ = incr (stateAt k k) := by rw [iterate_stateAt_row k k 0 (by omega)]; norm_num
      _ = stateAt (k + 1) 0 := incr_stateAt_last k

theorem computeOffset_natCast (n : Nat) :
    computeOffset (n : Int) = ((n * (n + 1)) / 2 : Nat) := by
  unfold computeOffset
  have h : ((n * (n + 1) : Nat) : Int) = (n : Int) * ((n : Int) + 1) := by push_cast; ring
  omega

theorem iterate_init_eq (n x : Nat) (hx : x ≤ n) :
    incr^[n * (n + 1) / 2 + x] init = stateAt n x := by
  rw [Nat.add_comm, Function.iterate_add_apply, iterate_offset n]
  have := iterate_stateAt_row n x 0 (by omega)
  simpa using this

theorem statesList_succ_order (M : Nat) :
    statesList (numIndices (M + 1)) =
      statesList (numIndices M) ++
        (List.range (M + 2)).map (fun x => stateAt (M + 1) x) := by
  have hsz : numIndices (M + 1) = numIndices M + (M + 2) := by
    unfold numIndices
    have h2 : (M + 1 + 1) * (M + 1 + 2) = (M + 1) * (M + 2) + 2 * (M + 2) := by ring
    omega
  unfold statesList
  rw [hsz, List.range_add, List.map_append, List.map_map]
  congr 1
  apply List.map_congr_left
  intro x hx
  simp only [List.mem_range] at hx
  show incr^[numIndices M + x] init = stateAt (M + 1) x
  have hoff : numIndices M = (M + 1) * (M + 2) / 2 := rfl
  rw [hoff]
  exact iterate_init_eq (M + 1) x (by omega)

theorem statesList_eq (M : Nat) :
    statesList (numIndices M) =
      (List.range (M + 1)).flatMap
        (fun n => (List.range (n + 1)).map (fun x => stateAt n x)) := by
  induction M with
  | zero =>
    decide
  | succ k ih =>
    have hR : List.range (k + 1 + 1) = List.range (k + 1) ++ [k + 1] := by
      simp [List.range_succ]
    rw [statesList_succ_order k, ih, hR, List.flatMap_append]
    simp [List.range_succ]

theorem incr_i (s : PackedIndex) : (incr s).i = s.i + 1 := by
  unfold incr
  split <;> rfl

theorem iterate_incr_i (j : Nat) : (incr^[j] init).i = j := by
  induction j with
  | zero => rfl
  | succ k ih =>
    rw [Function.iterate_succ_apply', incr_i, ih]
    push_cast
    ring

theorem statesList_map_i (k : Nat) :
    (statesList k).map PackedIndex.i = (List.range k).map Int.ofNat := by
  unfold statesList
  rw [List.map_map]
  apply List.map_congr_left
  intro j _
  simp only [Function.comp_apply]
  rw [iterate_incr_i j]
  simp

theorem stateAt_index (n x : Nat) :
    (stateAt n x).i = computeIndex (stateAt n x).x (stateAt n x).y := by
  unfold stateAt computeIndex
  have h : (x : Int) + ((n : Int) - x) = (n : Int) := by ring
  simp only [h]

end MultiShapelet.PackedIndex

namespace MultiShapelet.PackedIndex

/-- **C6.** Iterating `PackedIndex` from its default (origin) state by repeated
increment visits, in order, every pair `(x, y)` with `x + y ≤ M` — first all
pairs of total order 0, then order 1, and so on, within an order `y`
decreasing from `n` to 0 while `x` increases from 0 to `n` — producing exactly
`(M+1)(M+2)/2` distinct index values covering `0 .. (M+1)(M+2)/2 - 1` with no
repeats, and at every step `getIndex()` equals `(x+y)(x+y+1)/2 + x`. -/
theorem packedIndex_enumeration (M : Nat) :
    (statesList (numIndices M)).map (fun s => (s.x, s.y)) = canonicalPairs M ∧
    (statesList (numIndices M)).map PackedIndex.i =
      (List.range (numIndices M)).map Int.ofNat ∧
    ((statesList (numIndices M)).map PackedIndex.i).Nodup ∧
    (statesList (numIndices M)).all
      (fun s => s.i == computeIndex s.x s.y) = true := by
  refine ⟨?_, statesList_map_i _, ?_, ?_⟩
  · rw [statesList_eq]
    unfold canonicalPairs
    rw [List.map_flatMap]
    simp [stateAt, Function.comp_def, Int.ofNat_eq_coe]
  · rw [statesList_map_i]
    exact (List.nodup_range _).map (fun a b h => Int.ofNat.inj h)
  · rw [List.all_eq_true]
    intro s hs
    rw [statesList_eq] at hs
    simp only [List.mem_flatMap, List.mem_map, List.mem_range] at hs
    obtain ⟨n, hn, x, hx, rfl⟩ := hs
    rw [beq_iff_eq]
    exact stateAt_index n x

end MultiShapelet.PackedIndex

namespace MultiShapelet

/-! ### Regions, footprints and images

The `afw` region model: a footprint is an ordered list of horizontal spans
`(y, x0, x1)`; a `Box2I` is an integer bounding box with inclusive minimum and
maximum corners.  These collaborators are external to the repository; the
specification fixes their boundary semantics (span iteration, clipping to
bounds, mask intersection, row-major flattening). -/

/-- One horizontal run of pixels: row `y`, columns `x0` through `x1`
inclusive. -/
structure Span where
  y : Int
  x0 : Int
  x1 : Int
  deriving Repr, DecidableEq

/-- An integer box with inclusive corners `(x0, y0)`–`(x1, y1)`; it is empty
when `x1 < x0` or `y1 < y0`. -/
structure Box2I where
  x0 : Int
  y0 : Int
  x1 : Int
  y1 : Int
  deriving Repr, DecidableEq

/-- Membership of a pixel in a box. -/
def Box2I.contains (b : Box2I) (p : Int × Int) : Prop :=
  b.x0 ≤ p.1 ∧ p.1 ≤ b.x1 ∧ b.y0 ≤ p.2 ∧ p.2 ≤ b.y1

instance (b : Box2I) (p : Int × Int) : Decidable (b.contains p) := by
  unfold Box2I.contains
  infer_instance

/-- A footprint: an ordered list of spans. -/
def Footprint := List Span

instance : DecidableEq Footprint := by
  unfold Footprint
  infer_instance

/-- The pixels of one span, in increasing-`x` order. -/
def Span.pixels (s : Span) : List (Int × Int) :=
  (List.range (s.x1 + 1 - s.x0).toNat).map (fun k : Nat => (s.x0 + (k : Int), s.y))

/-- The pixels of a footprint in row-major span-traversal order. -/
def Footprint.pixels (fp : Footprint) : List (Int × Int) :=
  fp.flatMap Span.pixels

/-- `Footprint::getArea()`: the total number of pixels. -/
def Footprint.area (fp : Footprint) : Nat := fp.pixels.length

/-- Modelled from the spec: the `afw` footprint constructor from a `Box2I`
produces one span per row of the box. -/
def Footprint.ofBox (b : Box2I) : Footprint :=
  (List.range (b.y1 + 1 - b.y0).toNat).map (fun j : Nat => ⟨b.y0 + (j : Int), b.x0, b.x1⟩)

/-- Clip one span to a box: drop it if its row is outside, otherwise
intersect its column range; drop it if the intersection is empty. -/
def Span.clipTo (b : Box2I) (s : Span) : Option Span :=
  if s.y < b.y0 ∨ b.y1 < s.y then none
  else
    let nx0 := max s.x0 b.x0
    let nx1 := min s.x1 b.x1
    if nx1 < nx0 then none else some ⟨s.y, nx0, nx1⟩

/-- Modelled from the spec: `Footprint::clipTo(bbox)` — always clip the
working region to the image's valid bounds before extraction. -/
def Footprint.clipTo (fp : Footprint) (b : Box2I) : Footprint :=
  fp.filterMap (Span.clipTo b)

/-- Modelled from the spec: `Footprint::intersectMask(mask, badPixelMask)` —
restrict the footprint to pixels that lie inside the mask's bounds and whose
mask bits do not intersect the caller-specified bad-pixel bitmask; this is an
AND/intersect restructuring of the region, not a per-pixel skip, so it
changes the area. -/
def Footprint.intersectMask (fp : Footprint) (maskBox : Box2I)
    (mask : Int × Int → Nat) (badPixelMask : Nat) : Footprint :=
  fp.flatMap (fun s =>
    ((s.pixels.filter
        (fun p => decide (maskBox.contains p) && (Nat.land (mask p) badPixelMask == 0))).map
      (fun p => ⟨p.2, p.1, p.1⟩)))

/-- Modelled from the spec: `flattenArray(footprint, image, target)` — one
flattened sample per footprint pixel, in row-major span-traversal order. -/
def flattenArray (fp : Footprint) (image : Int × Int → ℝ) : List ℝ :=
  fp.pixels.map image

/-- `initCoords` (ModelInputHandler.cc lines 33–52): per-pixel offsets from
the caller-supplied center, in row-major span-traversal order. -/
def initCoords (fp : Footprint) (center : ℝ × ℝ) : List ℝ × List ℝ :=
  (fp.pixels.map (fun p => (p.1 : ℝ) - center.1),
   fp.pixels.map (fun p => (p.2 : ℝ) - center.2))

/-- The mean of an Eigen vector, `v.mean() = v.sum() / v.size()`. -/
noncomputable def listMean (l : List ℝ) : ℝ := l.sum / l.length

/-- The output arrays of a `ModelInputHandler` construction: the coordinate
arrays `x`, `y`, the data array, and the optional weight array. -/
structure ModelInputs where
  x : List ℝ
  y : List ℝ
  data : List ℝ
  weights : Option (List ℝ)

/-- `ModelInputHandler(Image, center, Box2I)` (ModelInputHandler.cc lines
56–66): build a footprint from the box, clip it to the image bounds, flatten
the image over it and record per-pixel offsets from the center.  No weight
array is produced. -/
def modelInputsImageBox (imageBox : Box2I) (image : Int × Int → ℝ)
    (center : ℝ × ℝ) (region : Box2I) : ModelInputs :=
  let fp := (Footprint.ofBox region).clipTo imageBox
  ⟨(initCoords fp center).1, (initCoords fp center).2, flattenArray fp image, none⟩

/-- `ModelInputHandler(Image, center, Footprint, growFootprint)`
(ModelInputHandler.cc lines 68–82): optionally grow the footprint (the
growing itself is an external `afw` operation, abstracted here as `grow`),
clip it to the image bounds, then extract as in the box variant. -/
def modelInputsImageFootprint (imageBox : Box2I) (image : Int × Int → ℝ)
    (center : ℝ × ℝ) (region : Footprint) (growFootprint : Int)
    (grow : Footprint → Int → Footprint) : ModelInputs :=
  let fp0 := if growFootprint ≠ 0 then grow region growFootprint else region
  let fp := fp0.clipTo imageBox
  ⟨(initCoords fp center).1, (initCoords fp center).2, flattenArray fp image, none⟩

/-- `ModelInputHandler(MaskedImage, center, Box2I, badPixelMask,
usePixelWeights)` (ModelInputHandler.cc lines 84–101): build a footprint from
the box, intersect it with the mask, flatten image and variance over it, then
turn the variance into weights — replacing every entry by the variance mean
first when `usePixelWeights` is false — as `w = 1/sqrt(var)`, and
pre-multiply the data by the weights. -/
noncomputable def modelInputsMaskedBox (imageBox : Box2I) (image variance : Int × Int → ℝ)
    (mask : Int × Int → Nat) (center : ℝ × ℝ) (region : Box2I)
    (badPixelMask : Nat) (usePixelWeights : Bool) : ModelInputs :=
  let fp := (Footprint.ofBox region).intersectMask imageBox mask badPixelMask
  let data := flattenArray fp image
  let weights0 := flattenArray fp variance
  let weights1 :=
    if usePixelWeights then weights0
    else weights0.map (fun _ => listMean weights0)
  let weights := weights1.map (fun v => (Real.sqrt v)⁻¹)
  ⟨(initCoords fp center).1, (initCoords fp center).2,
   data.zipWith (fun d w => d * w) weights, some weights⟩

/-- `ModelInputHandler(MaskedImage, center, Footprint, growFootprint,
badPixelMask, usePixelWeights)` (ModelInputHandler.cc lines 103–125): as the
masked box variant, but starting from an optionally grown footprint. -/
noncomputable def modelInputsMaskedFootprint (imageBox : Box2I) (image variance : Int × Int → ℝ)
    (mask : Int × Int → Nat) (center : ℝ × ℝ) (region : Footprint)
    (growFootprint : Int) (grow : Footprint → Int → Footprint)
    (badPixelMask : Nat) (usePixelWeights : Bool) : ModelInputs :=
  let fp0 := if growFootprint ≠ 0 then grow region growFootprint else region
  let fp := fp0.intersectMask imageBox mask badPixelMask
  let data := flattenArray fp image
  let weights0 := flattenArray fp variance
  let weights1 :=
    if usePixelWeights then weights0
    else weights0.map (fun _ => listMean weights0)
  let weights := weights1.map (fun v => (Real.sqrt v)⁻¹)
  ⟨(initCoords fp center).1, (initCoords fp center).2,
   data.zipWith (fun d w => d * w) weights, some weights⟩

end MultiShapelet

namespace MultiShapelet

theorem Span.mem_pixels {s : Span} {p : Int × Int} (hp : p ∈ s.pixels) :
    p.2 = s.y ∧ s.x0 ≤ p.1 ∧ p.1 ≤ s.x1 := by
  unfold Span.pixels at hp
  simp only [List.mem_map, List.mem_range] at hp
  obtain ⟨k, hk, rfl⟩ := hp
  refine ⟨rfl, ?_, ?_⟩
  · show s.x0 ≤ s.x0 + (k : Int)
    omega
  · show s.x0 + (k : Int) ≤ s.x1
    omega

theorem clipTo_pixels_subset (fp : Footprint) (b : Box2I) :
    ∀ p ∈ (fp.clipTo b).pixels, b.contains p := by
  intro p hp
  unfold Footprint.pixels Footprint.clipTo at hp
  simp only [List.mem_flatMap, List.mem_filterMap] at hp
  obtain ⟨s', ⟨s, _, hs⟩, hps⟩ := hp
  unfold Span.clipTo at hs
  by_cases hy : s.y < b.y0 ∨ b.y1 < s.y
  · simp [hy] at hs
  · simp only [hy, if_false] at hs
    by_cases hx : min s.x1 b.x1 < max s.x0 b.x0
    · simp [hx] at hs
    · simp only [hx, if_false, Option.some.injEq] at hs
      obtain ⟨hy2, hx0, hx1⟩ := Span.mem_pixels hps
      subst hs
      simp only at hy2 hx0 hx1
      unfold Box2I.contains
      push_neg at hy
      refine ⟨by omega, by omega, by omega, by omega⟩

theorem intersectMask_pixels_subset (fp : Footprint) (maskBox : Box2I)
    (mask : Int × Int → Nat) (badPixelMask : Nat) :
    ∀ p ∈ (fp.intersectMask maskBox mask badPixelMask).pixels, maskBox.contains p := by
  intro p hp
  unfold Footprint.pixels Footprint.intersectMask at hp
  simp only [List.mem_flatMap, List.mem_map, List.mem_filter] at hp
  obtain ⟨s', ⟨s, _, q, ⟨_, hq⟩, rfl⟩, hps⟩ := hp
  obtain ⟨hy2, hx0, hx1⟩ := Span.mem_pixels hps
  simp only at hy2 hx0 hx1
  have hpq : p = q := by
    obtain ⟨q1, q2⟩ := q
    obtain ⟨p1, p2⟩ := p
    simp_all
    omega
  subst hpq
  simp only [Bool.and_eq_true, decide_eq_true_eq] at hq
  exact hq.1

theorem length_flattenArray (fp : Footprint) (image : Int × Int → ℝ) :
    (flattenArray fp image).length = fp.area := by
  unfold flattenArray Footprint.area
  simp

theorem length_initCoords (fp : Footprint) (center : ℝ × ℝ) :
    (initCoords fp center).1.length = fp.area ∧
    (initCoords fp center).2.length = fp.area := by
  unfold initCoords Footprint.area
  simp

/-- **C3.** For every `ModelInputHandler` construction variant (rectangular or
footprint region, with or without mask/variance), the working region is
clipped to the image's valid pixel bounds before any data extraction, so
every extracted sample comes from an in-bounds pixel, and a region with zero
remaining area yields length-0 output arrays (here: each output array's
length equals the working region's remaining area, hence is 0 when the area
is 0). -/
theorem modelInputHandler_region_clipped
    (imageBox : Box2I) (image variance : Int × Int → ℝ) (mask : Int × Int → Nat)
    (center : ℝ × ℝ) (regionBox : Box2I) (regionFp : Footprint)
    (growFootprint : Int) (grow : Footprint → Int → Footprint)
    (badPixelMask : Nat) (usePixelWeights : Bool) :
    (((Footprint.ofBox regionBox).clipTo imageBox).pixels.all
        (fun p => decide (imageBox.contains p)) = true ∧
      (modelInputsImageBox imageBox image center regionBox).data.length =
        ((Footprint.ofBox regionBox).clipTo imageBox).area ∧
      (modelInputsImageBox imageBox image center regionBox).x.length =
        ((Footprint.ofBox regionBox).clipTo imageBox).area ∧
      (modelInputsImageBox imageBox image center regionBox).y.length =
        ((Footprint.ofBox regionBox).clipTo imageBox).area) ∧
    (((if growFootprint ≠ 0 then grow regionFp growFootprint else regionFp).clipTo
          imageBox).pixels.all (fun p => decide (imageBox.contains p)) = true ∧
      (modelInputsImageFootprint imageBox image center regionFp growFootprint
          grow).data.length =
        ((if growFootprint ≠ 0 then grow regionFp growFootprint else regionFp).clipTo
          imageBox).area ∧
      (modelInputsImageFootprint imageBox image center regionFp growFootprint
          grow).x.length =
        ((if growFootprint ≠ 0 then grow regionFp growFootprint else regionFp).clipTo
          imageBox).area ∧
      (modelInputsImageFootprint imageBox image center regionFp growFootprint
          grow).y.length =
        ((if growFootprint ≠ 0 then grow regionFp growFootprint else regionFp).clipTo
          imageBox).area) ∧
    (((Footprint.ofBox regionBox).intersectMask imageBox mask badPixelMask).pixels.all
        (fun p => decide (imageBox.contains p)) = true ∧
      (modelInputsMaskedBox imageBox image variance mask center regionBox
          badPixelMask usePixelWeights).data.length =
        ((Footprint.ofBox regionBox).intersectMask imageBox mask badPixelMask).area ∧
      (modelInputsMaskedBox imageBox image variance mask center regionBox
          badPixelMask usePixelWeights).x.length =
        ((Footprint.ofBox regionBox).intersectMask imageBox mask badPixelMask).area ∧
      (modelInputsMaskedBox imageBox image variance mask center regionBox
          badPixelMask usePixelWeights).y.length =
        ((Footprint.ofBox regionBox).intersectMask imageBox mask badPixelMask).area) ∧
    (((if growFootprint ≠ 0 then grow regionFp growFootprint else
          regionFp).intersectMask imageBox mask badPixelMask).pixels.all
        (fun p => decide (imageBox.contains p)) = true ∧
      (modelInputsMaskedFootprint imageBox image variance mask center regionFp
          growFootprint grow badPixelMask usePixelWeights).data.length =
        ((if growFootprint ≠ 0 then grow regionFp growFootprint else
          regionFp).intersectMask imageBox mask badPixelMask).area ∧
      (modelInputsMaskedFootprint imageBox image variance mask center regionFp
          growFootprint grow badPixelMask usePixelWeights).x.length =
        ((if growFootprint ≠ 0 then grow regionFp growFootprint else
          regionFp).intersectMask imageBox mask badPixelMask).area ∧
      (modelInputsMaskedFootprint imageBox image variance mask center regionFp
          growFootprint grow badPixelMask usePixelWeights).y.length =
        ((if growFootprint ≠ 0 then grow regionFp growFootprint else
          regionFp).intersectMask imageBox mask badPixelMask).area) := by
  have hall : ∀ (fp : Footprint),
      (∀ p ∈ fp.pixels, imageBox.contains p) →
      fp.pixels.all (fun p => decide (imageBox.contains p)) = true := by
    intro fp h
    rw [List.all_eq_true]
    intro p hp
    simpa using h p hp
  have hzip : ∀ (fp : Footprint) (upw : Bool),
      ((flattenArray fp image).zipWith (fun d w => d * w)
        (((if upw then flattenArray fp variance
            else (flattenArray fp variance).map
              (fun _ => listMean (flattenArray fp variance)))).map
          (fun v => (Real.sqrt v)⁻¹))).length = fp.area := by
    intro fp upw
    rw [List.length_zipWith]
    cases upw <;>
      simp [length_flattenArray, flattenArray, Footprint.area]
  refine ⟨⟨hall _ (clipTo_pixels_subset _ _), ?_, ?_, ?_⟩,
          ⟨hall _ (clipTo_pixels_subset _ _), ?_, ?_, ?_⟩,
          ⟨hall _ (intersectMask_pixels_subset _ _ _ _), ?_, ?_, ?_⟩,
          ⟨hall _ (intersectMask_pixels_subset _ _ _ _), ?_, ?_, ?_⟩⟩ <;>
    first
      | exact length_flattenArray _ _
      | exact (length_initCoords _ _).1
      | exact (length_initCoords _ _).2
      | exact hzip _ _

/-- **C9.** For the extraction scenario with region a single row span at
`y = 0` spanning `x = 0..4`, center `(2, 0)`, image values `[1,2,3,4,5]`, and
no mask, the handler returns `x = [-2,-1,0,1,2]`, `y = [0,0,0,0,0]`,
`data = [1,2,3,4,5]`, and no weight array; in general `x[n]` and `y[n]` are
the pixel coordinates minus the center, in row-major span-traversal order,
index-aligned with `data` of the same length. -/
theorem singleRowSpan_scenario (grow : Footprint → Int → Footprint) :
    modelInputsImageFootprint ⟨0, 0, 4, 0⟩ (fun p => (p.1 : ℝ) + 1) (2, 0)
        [⟨0, 0, 4⟩] 0 grow =
      ⟨[-2, -1, 0, 1, 2], [0, 0, 0, 0, 0], [1, 2, 3, 4, 5], none⟩ ∧
    ∀ (imageBox : Box2I) (image : Int × Int → ℝ) (center : ℝ × ℝ)
      (fp : Footprint) (g : Int) (gr : Footprint → Int → Footprint),
      (modelInputsImageFootprint imageBox image center fp g gr).x =
          ((if g ≠ 0 then gr fp g else fp).clipTo imageBox).pixels.map
            (fun p => (p.1 : ℝ) - center.1) ∧
      (modelInputsImageFootprint imageBox image center fp g gr).y =
          ((if g ≠ 0 then gr fp g else fp).clipTo imageBox).pixels.map
            (fun p => (p.2 : ℝ) - center.2) ∧
      (modelInputsImageFootprint imageBox image center fp g gr).data.length =
          (modelInputsImageFootprint imageBox image center fp g gr).x.length ∧
      (modelInputsImageFootprint imageBox image center fp g gr).data.length =
          (modelInputsImageFootprint imageBox image center fp g gr).y.length := by
  constructor
  · have hfp : Footprint.clipTo [⟨0, 0, 4⟩] ⟨0, 0, 4, 0⟩ = [⟨0, 0, 4⟩] := by decide
    have hpix : Footprint.pixels [⟨0, 0, 4⟩] =
        [(0, 0), (1, 0), (2, 0), (3, 0), (4, 0)] := by decide
    unfold modelInputsImageFootprint
    simp only [ne_eq, not_true_eq_false, if_false, hfp, initCoords, flattenArray, hpix]
    norm_num
  · intro imageBox image center fp g gr
    refine ⟨rfl, rfl, ?_, ?_⟩ <;>
      simp [modelInputsImageFootprint, flattenArray, initCoords]

theorem sqrt_two_div_sqrt_five_ne : ¬ (Real.sqrt 2 / Real.sqrt 5 = 3 / 4) := by
  intro h
  have h2 : Real.sqrt 2 ^ 2 = (2 : ℝ) := Real.sq_sqrt (by norm_num)
  have h5 : Real.sqrt 5 ^ 2 = (5 : ℝ) := Real.sq_sqrt (by norm_num)
  have hsq := congrArg (fun t : ℝ => t ^ 2) h
  simp only [div_pow] at hsq
  rw [h2, h5] at hsq
  norm_num at hsq

/-- **C2, counterexample.** With two pixels of variance 1 and 4 and
`usePixelWeights = false`, the mean of the per-pixel weights
`1/sqrt(var_i)` is `(1/sqrt 1 + 1/sqrt 4)/2 = 3/4`, but the handler's weight
array is not `[3/4, 3/4]` (it is `[1/sqrt(5/2), 1/sqrt(5/2)]`, built from the
mean of the variances). -/
theorem meanWeight_claim_fails :
    (1 / Real.sqrt 1 + 1 / Real.sqrt 4) / 2 = 3 / 4 ∧
    (modelInputsMaskedBox ⟨0, 0, 1, 0⟩ (fun _ => 1)
        (fun p => if p.1 = 0 then 1 else 4) (fun _ => 0) (0, 0) ⟨0, 0, 1, 0⟩
        0 false).weights ≠ some [3 / 4, 3 / 4] := by
  constructor
  · have h1 : Real.sqrt 1 = 1 := Real.sqrt_one
    have h4 : Real.sqrt 4 = 2 := by
      rw [show (4 : ℝ) = 2 ^ 2 by norm_num, Real.sqrt_sq (by norm_num)]
    rw [h1, h4]
    norm_num
  · have hfp : Footprint.intersectMask (Footprint.ofBox ⟨0, 0, 1, 0⟩)
        ⟨0, 0, 1, 0⟩ (fun _ => 0) 0 = [⟨0, 0, 0⟩, ⟨0, 1, 1⟩] := by decide
    have hpix : Footprint.pixels [⟨0, 0, 0⟩, ⟨0, 1, 1⟩] = [(0, 0), (1, 0)] := by
      decide
    unfold modelInputsMaskedBox
    simp only [hfp, flattenArray, hpix, List.map_cons, List.map_nil]
    norm_num [listMean]
    intro h
    exact sqrt_two_div_sqrt_five_ne h

/-- **C2, amended.** For every masked-image extraction with
`usePixelWeights = false`, every entry of the returned weight array equals
the reciprocal square root of the *mean variance* `1/sqrt(mean(var))` (a
single shared weight), and the returned data array is the raw pixel values
multiplied element-wise by that shared weight; with `usePixelWeights = true`
the weight array is `w_i = 1/sqrt(var_i)` per pixel and `data_i` is
pre-multiplied by `w_i`.  This holds for both masked construction variants. -/
theorem maskedImage_weighting
    (imageBox : Box2I) (image variance : Int × Int → ℝ) (mask : Int × Int → Nat)
    (center : ℝ × ℝ) (regionBox : Box2I) (regionFp : Footprint)
    (growFootprint : Int) (grow : Footprint → Int → Footprint)
    (badPixelMask : Nat) :
    (∀ fp var, fp = (Footprint.ofBox regionBox).intersectMask imageBox mask badPixelMask →
      var = flattenArray fp variance →
      ((modelInputsMaskedBox imageBox image variance mask center regionBox
          badPixelMask false).weights =
        some (var.map (fun _ => (Real.sqrt (listMean var))⁻¹)) ∧
       (modelInputsMaskedBox imageBox image variance mask center regionBox
          badPixelMask false).data =
        (flattenArray fp image).zipWith (fun d w => d * w)
          (var.map (fun _ => (Real.sqrt (listMean var))⁻¹)) ∧
       (modelInputsMaskedBox imageBox image variance mask center regionBox
          badPixelMask true).weights =
        some (var.map (fun v => (Real.sqrt v)⁻¹)) ∧
       (modelInputsMaskedBox imageBox image variance mask center regionBox
          badPixelMask true).data =
        (flattenArray fp image).zipWith (fun d w => d * w)
          (var.map (fun v => (Real.sqrt v)⁻¹)))) ∧
    (∀ fp var, fp = (if growFootprint ≠ 0 then grow regionFp growFootprint
          else regionFp).intersectMask imageBox mask badPixelMask →
      var = flattenArray fp variance →
      ((modelInputsMaskedFootprint imageBox image variance mask center regionFp
          growFootprint grow badPixelMask false).weights =
        some (var.map (fun _ => (Real.sqrt (listMean var))⁻¹)) ∧
       (modelInputsMaskedFootprint imageBox image variance mask center regionFp
          growFootprint grow badPixelMask false).data =
        (flattenArray fp image).zipWith (fun d w => d * w)
          (var.map (fun _ => (Real.sqrt (listMean var))⁻¹)) ∧
       (modelInputsMaskedFootprint imageBox image variance mask center regionFp
          growFootprint grow badPixelMask true).weights =
        some (var.map (fun v => (Real.sqrt v)⁻¹)) ∧
       (modelInputsMaskedFootprint imageBox image variance mask center regionFp
          growFootprint grow badPixelMask true).data =
        (flattenArray fp image).zipWith (fun d w => d * w)
          (var.map (fun v => (Real.sqrt v)⁻¹)))) := by
  constructor
  · rintro fp var rfl rfl
    refine ⟨?_, ?_, ?_, ?_⟩ <;>
      simp [modelInputsMaskedBox, List.map_map, Function.comp_def]
  · rintro fp var rfl rfl
    refine ⟨?_, ?_, ?_, ?_⟩ <;>
      simp [modelInputsMaskedFootprint, List.map_map, Function.comp_def]

/-- The variance plane used in the concrete two-pixel weighting example. -/
noncomputable def exampleVariance : Int × Int → ℝ :=
  fun p => if p.1 = 0 then 1 else 4

/-- The working footprint of the concrete two-pixel weighting example. -/
def exampleMaskFp : Footprint :=
  (Footprint.ofBox ⟨0, 0, 1, 0⟩).intersectMask ⟨0, 0, 1, 0⟩ (fun _ => 0) 0

/-- The flattened variance array of the two-pixel weighting example. -/
noncomputable def exampleVar : List ℝ := flattenArray exampleMaskFp exampleVariance

/-- Witness for `maskedImage_weighting` at a concrete two-pixel input. -/
theorem maskedImage_weighting_witness :
    (modelInputsMaskedBox ⟨0, 0, 1, 0⟩ (fun _ => 1) exampleVariance
        (fun _ => 0) (0, 0) ⟨0, 0, 1, 0⟩ 0 false).weights =
      some (exampleVar.map (fun _ => (Real.sqrt (listMean exampleVar))⁻¹)) :=
  ((maskedImage_weighting ⟨0, 0, 1, 0⟩ (fun _ => 1) exampleVariance
      (fun _ => 0) (0, 0) ⟨0, 0, 1, 0⟩ [] 0 (fun f _ => f) 0).1
    exampleMaskFp exampleVar rfl rfl).1

/-! ### GaussianModelBuilder (GaussianModelBuilder.cc)

The ellipse's grid transform enters the builder only through its six affine
coefficients; the builder caches the transformed coordinates `xyt` and the
model vector, both recomputed by `computeModel`. -/

/-- An affine grid transform `T(x, y) = M·(x, y) + t` with linear matrix
`[[mxx, mxy], [myx, myy]]` and translation `(mx, my)`. -/
structure AffineTransform where
  mxx : ℝ
  mxy : ℝ
  myx : ℝ
  myy : ℝ
  mx : ℝ
  my : ℝ

/-- Apply the affine transform to a point. -/
def AffineTransform.apply (T : AffineTransform) (p : ℝ × ℝ) : ℝ × ℝ :=
  (T.mxx * p.1 + T.mxy * p.2 + T.mx, T.myx * p.1 + T.myy * p.2 + T.my)

/-- The six named affine coefficients of `afw::geom::AffineTransform`
(`AT::XX`, `AT::YX`, `AT::XY`, `AT::YY`, `AT::X`, `AT::Y`). -/
inductive AffineCoeff where
  | XX | YX | XY | YY | X | Y
  deriving Repr, DecidableEq

/-- All six affine coefficients (the rows of the 6×P Jacobian). -/
def AffineCoeff.all : List AffineCoeff :=
  [AffineCoeff.XX, AffineCoeff.YX, AffineCoeff.XY,
   AffineCoeff.YY, AffineCoeff.X, AffineCoeff.Y]

/-- The order in which `_computeDerivative` performs its six multiply-adds
(GaussianModelBuilder.cc lines 140–151). -/
def accumOrder : List AffineCoeff :=
  [AffineCoeff.XX, AffineCoeff.XY, AffineCoeff.X,
   AffineCoeff.YX, AffineCoeff.YY, AffineCoeff.Y]

/-- The builder's state: the fixed pixel coordinates `_xy` and the cached
transformed coordinates `_xyt` and model vector `_model`. -/
structure GaussianModelBuilder where
  xy : List (ℝ × ℝ)
  xyt : List (ℝ × ℝ)
  model : List ℝ

/-- `GaussianModelBuilder(Footprint)` (GaussianModelBuilder.cc lines 28–42):
record one coordinate pair per footprint pixel, in row-major span-traversal
order; the caches start out unset. -/
def GaussianModelBuilder.ofFootprint (region : Footprint) : GaussianModelBuilder :=
  ⟨region.pixels.map (fun p => ((p.1 : ℝ), (p.2 : ℝ))), [], []⟩

/-- `computeModel(ellipse)` (GaussianModelBuilder.cc lines 70–83): transform
every pixel with the grid transform and cache
`model[n] = exp(-0.5·‖xyt_n‖²)` together with `xyt`. -/
noncomputable def GaussianModelBuilder.computeModel (b : GaussianModelBuilder)
    (T : AffineTransform) : GaussianModelBuilder :=
  let xyt := b.xy.map (fun p => T.apply p)
  { b with
    xyt := xyt,
    model := xyt.map (fun q => Real.exp (-0.5 * (q.1 ^ 2 + q.2 ^ 2))) }

/-- `std::numeric_limits<double>::epsilon()` (the double machine epsilon
`2⁻⁵²`). -/
noncomputable def machineEps : ℝ := ((2 : ℝ) ^ (52 : Nat))⁻¹

/-- `jacobian.lpNorm<Eigen::Infinity>()`: the largest absolute value of any
coefficient of the 6×P Jacobian. -/
noncomputable def jacNormInf (jac : AffineCoeff → Nat → ℝ) (P : Nat) : ℝ :=
  (AffineCoeff.all.flatMap (fun k => (List.range P).map (fun j => |jac k j|))).foldr
    max 0

/-- `dfdx[n] = -xyt(n,0) * model[n]` (GaussianModelBuilder.cc line 128). -/
noncomputable def GaussianModelBuilder.dfdx (b : GaussianModelBuilder) (n : Nat) : ℝ :=
  -(b.xyt.getD n (0, 0)).1 * b.model.getD n 0

/-- `dfdy[n] = -xyt(n,1) * model[n]` (GaussianModelBuilder.cc line 129). -/
noncomputable def GaussianModelBuilder.dfdy (b : GaussianModelBuilder) (n : Nat) : ℝ :=
  -(b.xyt.getD n (0, 0)).2 * b.model.getD n 0

/-- The per-pixel partial of the model with respect to one affine
coefficient, as accumulated by the six multiply-adds of
GaussianModelBuilder.cc lines 140–151: `x·dfdx`, `y·dfdx`, `dfdx`, `x·dfdy`,
`y·dfdy`, `dfdy` for `XX`, `XY`, `X`, `YX`, `YY`, `Y` respectively. -/
noncomputable def GaussianModelBuilder.affinePartial (b : GaussianModelBuilder)
    (k : AffineCoeff) (n : Nat) : ℝ :=
  match k with
  | AffineCoeff.XX => (b.xy.getD n (0, 0)).1 * b.dfdx n
  | AffineCoeff.XY => (b.xy.getD n (0, 0)).2 * b.dfdx n
  | AffineCoeff.X => b.dfdx n
  | AffineCoeff.YX => (b.xy.getD n (0, 0)).1 * b.dfdy n
  | AffineCoeff.YY => (b.xy.getD n (0, 0)).2 * b.dfdy n
  | AffineCoeff.Y => b.dfdy n

/-- The accumulated value of output entry `(m, n)` under the sparsity skip:
each of the six terms is added only when the corresponding Jacobian
coefficient's magnitude exceeds `eps = machine epsilon · ‖J‖_∞`
(GaussianModelBuilder.cc lines 138–152). -/
noncomputable def GaussianModelBuilder.skipSum (b : GaussianModelBuilder)
    (jac : AffineCoeff → Nat → ℝ) (jacCols m n : Nat) : ℝ :=
  (accumOrder.map (fun k =>
    if |jac k n| > machineEps * jacNormInf jac jacCols then
      jac k n * b.affinePartial k m
    else 0)).sum

/-- The same accumulation with all six multiply-adds performed
unconditionally (the chain-rule sum `Σ_k J(k,n) · ∂model/∂affine_k` the
specification describes). -/
noncomputable def GaussianModelBuilder.fullSum (b : GaussianModelBuilder)
    (jac : AffineCoeff → Nat → ℝ) (m n : Nat) : ℝ :=
  (accumOrder.map (fun k => jac k n * b.affinePartial k m)).sum

/-- The output buffer after the accumulation loop: `out.setZero()` first
unless `add` is set, then the skip-guarded multiply-adds into every column
`n < jacCols` (GaussianModelBuilder.cc lines 130–152). -/
noncomputable def GaussianModelBuilder.derivOutput (b : GaussianModelBuilder)
    (jac : AffineCoeff → Nat → ℝ) (jacCols : Nat) (add : Bool)
    (prior : Nat → Nat → ℝ) : Nat → Nat → ℝ :=
  fun m n =>
    (if add then prior m n else 0) +
      (if n < jacCols then GaussianModelBuilder.skipSum b jac jacCols m n else 0)

/-- As `derivOutput` but with all six multiply-adds performed
unconditionally. -/
noncomputable def GaussianModelBuilder.derivOutputFull (b : GaussianModelBuilder)
    (jac : AffineCoeff → Nat → ℝ) (jacCols : Nat) (add : Bool)
    (prior : Nat → Nat → ℝ) : Nat → Nat → ℝ :=
  fun m n =>
    (if add then prior m n else 0) +
      (if n < jacCols then GaussianModelBuilder.fullSum b jac m n else 0)

/-- The error raised by the dimension guards, carrying the two reported
numbers. -/
inductive FitError where
  | invalidParameter (got expected : Nat)
  deriving Repr, DecidableEq

/-- `_computeDerivative(output, ellipse, jacobian, add, reuseModel)`
(GaussianModelBuilder.cc lines 106–153): recompute the cached model unless
`reuseModel`, run the two dimension guards — the second of which repeats the
row test `output.getSize<0>() != _xy.rows()` while its message reports the
column/Jacobian pair — and on success accumulate into the output.  Returns
the builder state after the call, the error outcome, and the output buffer
after the call. -/
noncomputable def GaussianModelBuilder.runComputeDerivative
    (b : GaussianModelBuilder) (T : AffineTransform)
    (jac : AffineCoeff → Nat → ℝ) (jacCols : Nat)
    (output : Nat → Nat → ℝ) (outRows outCols : Nat) (add reuseModel : Bool) :
    GaussianModelBuilder × Except FitError Unit × (Nat → Nat → ℝ) :=
  let b' := if reuseModel then b else b.computeModel T
  if outRows ≠ b'.xy.length then
    (b', Except.error (FitError.invalidParameter outRows b'.xy.length), output)
  else if outRows ≠ b'.xy.length then
    (b', Except.error (FitError.invalidParameter outCols jacCols), output)
  else
    (b', Except.ok (), GaussianModelBuilder.derivOutput b' jac jacCols add output)

theorem computeModel_xy (b : GaussianModelBuilder) (T : AffineTransform) :
    (b.computeModel T).xy = b.xy := rfl

/-- **C5.** For every pixel set and ellipse, `computeModel` returns
`model[n] = exp(-½‖T(x_n, y_n)‖²)` where `T` is the ellipse's affine grid
transform applied to pixel `n`'s coordinates; in particular, for the identity
grid transform over pixel set `{(0,0), (1,0), (0,1)}` the result is exactly
`[1, e^(-0.5), e^(-0.5)]`.  The transformed coordinates are cached alongside
the model. -/
theorem computeModel_gaussian :
    (∀ (b : GaussianModelBuilder) (T : AffineTransform),
      (b.computeModel T).model =
        b.xy.map (fun p =>
          Real.exp (-0.5 * ((T.apply p).1 ^ 2 + (T.apply p).2 ^ 2))) ∧
      (b.computeModel T).xyt = b.xy.map (fun p => T.apply p)) ∧
    ((GaussianModelBuilder.ofFootprint [⟨0, 0, 1⟩, ⟨1, 0, 0⟩]).computeModel
        ⟨1, 0, 0, 1, 0, 0⟩).model =
      [1, Real.exp (-(1 / 2)), Real.exp (-(1 / 2))] := by
  constructor
  · intro b T
    constructor
    · unfold GaussianModelBuilder.computeModel
      simp [List.map_map, Function.comp_def]
    · rfl
  · have hpix : Footprint.pixels [⟨0, 0, 1⟩, ⟨1, 0, 0⟩] =
        [(0, 0), (1, 0), (0, 1)] := by decide
    unfold GaussianModelBuilder.computeModel GaussianModelBuilder.ofFootprint
    rw [hpix]
    unfold AffineTransform.apply
    norm_num

/-- **C1, evaluation at the failing input.**  The second dimension guard of
`_computeDerivative` repeats the row test (`output.getSize<0>() !=
_xy.rows()`, GaussianModelBuilder.cc line 121) instead of comparing the
output's column count with the Jacobian's, so a call whose output has the
right row count but the wrong column count passes both guards and proceeds:
with one pixel, a 1×5 output and a 2-column Jacobian the call succeeds, and
in general success depends only on the row count. -/
theorem columnMismatch_not_rejected :
    (GaussianModelBuilder.runComputeDerivative
        (GaussianModelBuilder.ofFootprint [⟨0, 0, 0⟩]) ⟨1, 0, 0, 1, 0, 0⟩
        (fun _ _ => 0) 2 (fun _ _ => 0) 1 5 false false).2.1 = Except.ok () ∧
    (∀ (b : GaussianModelBuilder) (T : AffineTransform)
      (jac : AffineCoeff → Nat → ℝ) (jacCols : Nat) (output : Nat → Nat → ℝ)
      (outRows outCols : Nat) (add reuseModel : Bool),
      ((GaussianModelBuilder.runComputeDerivative b T jac jacCols output
          outRows outCols add reuseModel).2.1 = Except.ok ()) ↔
        outRows = b.xy.length) := by
  constructor
  · rfl
  · intro b T jac jacCols output outRows outCols add reuseModel
    unfold GaussianModelBuilder.runComputeDerivative
    have hxy : (if reuseModel then b else b.computeModel T).xy.length =
        b.xy.length := by
      cases reuseModel <;> simp [computeModel_xy]
    simp only [hxy]
    by_cases h : outRows = b.xy.length
    · simp [h]
    · simp [h]

/-- **C10.** Whenever `_computeDerivative` raises `InvalidParameter`, the
caller-supplied output array is left completely unchanged (the dimension
checks precede every write to the output), but when `reuseModel = false` the
builder's cached model and transformed-coordinate buffers have already been
recomputed for the new ellipse before the error is raised, so the internal
cache is not atomic with respect to the failure. -/
theorem derivative_error_atomicity
    (b : GaussianModelBuilder) (T : AffineTransform)
    (jac : AffineCoeff → Nat → ℝ) (jacCols : Nat) (output : Nat → Nat → ℝ)
    (outRows outCols : Nat) (add reuseModel : Bool) (e : FitError)
    (h : (GaussianModelBuilder.runComputeDerivative b T jac jacCols output
        outRows outCols add reuseModel).2.1 = Except.error e) :
    (GaussianModelBuilder.runComputeDerivative b T jac jacCols output outRows
        outCols add reuseModel).2.2 = output ∧
    (reuseModel = false →
      (GaussianModelBuilder.runComputeDerivative b T jac jacCols output
          outRows outCols add reuseModel).1 = b.computeModel T) := by
  unfold GaussianModelBuilder.runComputeDerivative at h ⊢
  by_cases hrow : outRows ≠ (if reuseModel then b else b.computeModel T).xy.length
  · rw [if_pos hrow]
    exact ⟨rfl, fun hr => by simp [hr]⟩
  · rw [if_neg hrow] at h
    rw [if_neg hrow] at h
    simp at h

/-- Witness for `derivative_error_atomicity`: a one-pixel builder called with
a two-row output errors, leaves the output untouched, and has already
recomputed its cache. -/
theorem derivative_error_atomicity_witness :
    ((GaussianModelBuilder.runComputeDerivative
        (GaussianModelBuilder.ofFootprint [⟨0, 0, 0⟩]) ⟨1, 0, 0, 1, 0, 0⟩
        (fun _ _ => 0) 1 (fun _ _ => 0) 2 1 false false).2.1 =
      Except.error (FitError.invalidParameter 2 1)) ∧
    (GaussianModelBuilder.runComputeDerivative
        (GaussianModelBuilder.ofFootprint [⟨0, 0, 0⟩]) ⟨1, 0, 0, 1, 0, 0⟩
        (fun _ _ => 0) 1 (fun _ _ => 0) 2 1 false false).2.2 =
      (fun _ _ => (0 : ℝ)) ∧
    (GaussianModelBuilder.runComputeDerivative
        (GaussianModelBuilder.ofFootprint [⟨0, 0, 0⟩]) ⟨1, 0, 0, 1, 0, 0⟩
        (fun _ _ => 0) 1 (fun _ _ => 0) 2 1 false false).1 =
      (GaussianModelBuilder.ofFootprint [⟨0, 0, 0⟩]).computeModel
        ⟨1, 0, 0, 1, 0, 0⟩ := by
  have h : (GaussianModelBuilder.runComputeDerivative
      (GaussianModelBuilder.ofFootprint [⟨0, 0, 0⟩]) ⟨1, 0, 0, 1, 0, 0⟩
      (fun _ _ => 0) 1 (fun _ _ => 0) 2 1 false false).2.1 =
      Except.error (FitError.invalidParameter 2 1) := rfl
  refine ⟨h, ?_, ?_⟩
  · exact (derivative_error_atomicity _ _ _ _ _ _ _ _ _ _ h).1
  · exact (derivative_error_atomicity _ _ _ _ _ _ _ _ _ _ h).2 rfl

/-- **C8.** For every valid output buffer, ellipse, and Jacobian, the
accumulation with `add = true` yields, in each output entry, the entry's
prior contents plus the derivative value that the same call with
`add = false` would have written into a zeroed buffer; with `add = false` the
prior contents of the output are fully overwritten (the result does not
depend on them). -/
theorem add_flag_composes (b : GaussianModelBuilder)
    (jac : AffineCoeff → Nat → ℝ) (jacCols : Nat) (prior : Nat → Nat → ℝ)
    (m n : Nat) :
    GaussianModelBuilder.derivOutput b jac jacCols true prior m n =
      prior m n +
        GaussianModelBuilder.derivOutput b jac jacCols false (fun _ _ => 0) m n ∧
    GaussianModelBuilder.derivOutput b jac jacCols false prior m n =
      GaussianModelBuilder.derivOutput b jac jacCols false (fun _ _ => 0) m n := by
  unfold GaussianModelBuilder.derivOutput
  norm_num

/-- One-pixel builder at `(1, 0)` with its model cached for the identity grid
transform. -/
noncomputable def bOne : GaussianModelBuilder :=
  (GaussianModelBuilder.ofFootprint [⟨0, 1, 1⟩]).computeModel ⟨1, 0, 0, 1, 0, 0⟩

/-- A 6×2 Jacobian whose first column holds a unit `X` entry and whose second
column holds the tiny but nonzero `X` entry `2⁻⁵³` — below the machine
epsilon `2⁻⁵²` times the Jacobian's infinity norm (which is 1). -/
noncomputable def tinyJac : AffineCoeff → Nat → ℝ :=
  fun k n =>
    if k = AffineCoeff.X ∧ n = 0 then 1
    else if k = AffineCoeff.X ∧ n = 1 then ((2 : ℝ) ^ (53 : Nat))⁻¹
    else 0

/-- A 6×1 Jacobian with a single unit `X` entry. -/
noncomputable def unitJac : AffineCoeff → Nat → ℝ :=
  fun k n => if k = AffineCoeff.X ∧ n = 0 then 1 else 0

theorem bOne_eval :
    bOne.xy = [(1, 0)] ∧ bOne.xyt = [(1, 0)] ∧
    bOne.model = [Real.exp (-(1 / 2))] := by
  have hpix : Footprint.pixels [⟨0, 1, 1⟩] = [(1, 0)] := by decide
  unfold bOne GaussianModelBuilder.computeModel GaussianModelBuilder.ofFootprint
  rw [hpix]
  unfold AffineTransform.apply
  norm_num

theorem bOne_dfdx : bOne.dfdx 0 = -Real.exp (-(1 / 2)) := by
  obtain ⟨h1, h2, h3⟩ := bOne_eval
  unfold GaussianModelBuilder.dfdx
  rw [h2, h3]
  norm_num

theorem coeff_XX_ne : (AffineCoeff.XX = AffineCoeff.X) = False := by simp

theorem coeff_YX_ne : (AffineCoeff.YX = AffineCoeff.X) = False := by simp

theorem coeff_XY_ne : (AffineCoeff.XY = AffineCoeff.X) = False := by simp

theorem coeff_YY_ne : (AffineCoeff.YY = AffineCoeff.X) = False := by simp

theorem coeff_Y_ne : (AffineCoeff.Y = AffineCoeff.X) = False := by simp

theorem jacNormInf_tinyJac : jacNormInf tinyJac 2 = 1 := by
  have hr : List.range 2 = [0, 1] := by decide
  unfold jacNormInf AffineCoeff.all
  rw [hr]
  simp only [List.map_cons, List.map_nil, List.flatMap_cons, List.flatMap_nil,
    List.cons_append, List.nil_append, List.append_nil, List.foldr_cons,
    List.foldr_nil]
  simp only [tinyJac]
  simp only [coeff_XX_ne, coeff_YX_ne, coeff_XY_ne, coeff_YY_ne, coeff_Y_ne,
    false_and, if_false, and_true, and_false, true_and, if_true,
    eq_self_iff_true]
  norm_num
  rw [abs_of_pos (show (0 : ℝ) < 1 / 9007199254740992 by norm_num)]
  norm_num

theorem jacNormInf_unitJac : jacNormInf unitJac 1 = 1 := by
  have hr : List.range 1 = [0] := by decide
  unfold jacNormInf AffineCoeff.all
  rw [hr]
  simp only [List.map_cons, List.map_nil, List.flatMap_cons, List.flatMap_nil,
    List.cons_append, List.nil_append, List.append_nil, List.foldr_cons,
    List.foldr_nil]
  simp only [unitJac]
  simp only [coeff_XX_ne, coeff_YX_ne, coeff_XY_ne, coeff_YY_ne, coeff_Y_ne,
    false_and, if_false, and_true, and_false, true_and, if_true,
    eq_self_iff_true]
  norm_num

theorem skipSum_bOne_tinyJac : GaussianModelBuilder.skipSum bOne tinyJac 2 0 1 = 0 := by
  unfold GaussianModelBuilder.skipSum accumOrder
  rw [jacNormInf_tinyJac]
  simp only [List.map_cons, List.map_nil, List.sum_cons, List.sum_nil]
  simp only [tinyJac, machineEps]
  simp only [coeff_XX_ne, coeff_YX_ne, coeff_XY_ne, coeff_YY_ne, coeff_Y_ne,
    show ((1 : Nat) = 0) = False from by norm_num,
    false_and, if_false, and_true, and_false, true_and, if_true,
    eq_self_iff_true]
  rw [abs_of_pos (show (0 : ℝ) < ((2 : ℝ) ^ (53 : Nat))⁻¹ by positivity)]
  norm_num

theorem fullSum_bOne_tinyJac :
    GaussianModelBuilder.fullSum bOne tinyJac 0 1 =
      -(((2 : ℝ) ^ (53 : Nat))⁻¹ * Real.exp (-(1 / 2))) := by
  unfold GaussianModelBuilder.fullSum accumOrder
  simp only [List.map_cons, List.map_nil, List.sum_cons, List.sum_nil]
  simp only [tinyJac]
  simp only [coeff_XX_ne, coeff_YX_ne, coeff_XY_ne, coeff_YY_ne, coeff_Y_ne,
    show ((1 : Nat) = 0) = False from by norm_num,
    false_and, if_false, and_true, and_false, true_and, if_true,
    eq_self_iff_true]
  rw [show GaussianModelBuilder.affinePartial bOne AffineCoeff.X 0 = bOne.dfdx 0
      from rfl, bOne_dfdx]
  norm_num

/-- Shared congruence: the skip-guarded sum agrees with the unconditional sum
whenever every Jacobian coefficient of column `n` is either exactly zero or
strictly exceeds `machine epsilon · ‖J‖_∞` in magnitude. -/
theorem skipSum_eq_fullSum (b : GaussianModelBuilder)
    (jac : AffineCoeff → Nat → ℝ) (jacCols m n : Nat)
    (h : ∀ k, jac k n = 0 ∨ |jac k n| > machineEps * jacNormInf jac jacCols) :
    GaussianModelBuilder.skipSum b jac jacCols m n =
      GaussianModelBuilder.fullSum b jac m n := by
  unfold GaussianModelBuilder.skipSum GaussianModelBuilder.fullSum
  congr 1
  apply List.map_congr_left
  intro k _
  rcases h k with h0 | hgt
  · rw [h0]
    simp
  · rw [if_pos hgt]

/-- **C4, counterexample.**  Over the one-pixel builder `bOne` and the 6×2
Jacobian `tinyJac`, whose column-1 entry `2⁻⁵³` is nonzero but below machine
epsilon times the Jacobian's infinity norm, `computeDerivative` (with
`add = false` into a zeroed buffer) writes 0 into entry `(0, 1)` while the
chain-rule sum over the six affine coefficients is the nonzero value
`-2⁻⁵³·e^(-1/2)` — so the output does not always equal the chain-rule sum. -/
theorem chainRule_claim_fails :
    GaussianModelBuilder.derivOutput bOne tinyJac 2 false (fun _ _ => 0) 0 1 ≠
      GaussianModelBuilder.fullSum bOne tinyJac 0 1 := by
  unfold GaussianModelBuilder.derivOutput
  rw [skipSum_bOne_tinyJac, fullSum_bOne_tinyJac]
  norm_num

/-- **C4, amended.**  For every pixel set, ellipse, and 6×P chained Jacobian
whose column-`n` entries are each either zero or larger in magnitude than
machine epsilon times the Jacobian's infinity norm, `computeDerivative`
(with `add = false` into a zeroed buffer) fills entry `(m, n)` of the output
with the per-pixel chain-rule sum `Σ_k (∂model/∂affine_k)·J(k, n)`, where
`dfdx = -xyt_x·model`, `dfdy = -xyt_y·model`, and the affine-coefficient
partials are `x·dfdx`, `y·dfdx`, `dfdx`, `x·dfdy`, `y·dfdy`, `dfdy` for
`(Mxx, Mxy, Mx, Myx, Myy, My)` respectively; entries at or below the
threshold are instead treated as exactly zero by the sparsity skip. -/
theorem chainRule_above_threshold (b : GaussianModelBuilder)
    (jac : AffineCoeff → Nat → ℝ) (jacCols m n : Nat)
    (hn : n < jacCols)
    (h : ∀ k, jac k n = 0 ∨ |jac k n| > machineEps * jacNormInf jac jacCols) :
    GaussianModelBuilder.derivOutput b jac jacCols false (fun _ _ => 0) m n =
      GaussianModelBuilder.fullSum b jac m n := by
  unfold GaussianModelBuilder.derivOutput
  rw [if_pos hn, skipSum_eq_fullSum b jac jacCols m n h]
  norm_num

/-- Witness for `chainRule_above_threshold` at the unit Jacobian. -/
theorem chainRule_above_threshold_witness :
    (0 < 1 ∧
      ∀ k, unitJac k 0 = 0 ∨ |unitJac k 0| > machineEps * jacNormInf unitJac 1) ∧
    GaussianModelBuilder.derivOutput bOne unitJac 1 false (fun _ _ => 0) 0 0 =
      GaussianModelBuilder.fullSum bOne unitJac 0 0 := by
  have hcond : ∀ k, unitJac k 0 = 0 ∨
      |unitJac k 0| > machineEps * jacNormInf unitJac 1 := by
    intro k
    rw [jacNormInf_unitJac]
    cases k
    case X =>
      right
      unfold unitJac machineEps
      norm_num
    all_goals
      left
      unfold unitJac
      simp only [coeff_XX_ne, coeff_YX_ne, coeff_XY_ne, coeff_YY_ne, coeff_Y_ne,
        false_and, if_false]
  exact ⟨⟨Nat.zero_lt_one, hcond⟩,
    chainRule_above_threshold bOne unitJac 1 0 0 Nat.zero_lt_one hcond⟩

/-- **C7, counterexample.**  The derivative array produced with the sparsity
skip differs from the array produced by performing all six multiply-adds
unconditionally: over `bOne` and `tinyJac` (whose column-1 entry `2⁻⁵³` is
nonzero but at most machine epsilon times the Jacobian's infinity norm) the
two arrays differ at entry `(0, 1)` — the skip is observable. -/
theorem skip_unobservable_claim_fails :
    GaussianModelBuilder.derivOutput bOne tinyJac 2 false (fun _ _ => 0) ≠
      GaussianModelBuilder.derivOutputFull bOne tinyJac 2 false (fun _ _ => 0) := by
  intro h
  have h2 := congrFun (congrFun h 0) 1
  unfold GaussianModelBuilder.derivOutput GaussianModelBuilder.derivOutputFull at h2
  rw [skipSum_bOne_tinyJac, fullSum_bOne_tinyJac] at h2
  norm_num at h2

/-- **C7, amended.**  For every pixel set, ellipse, and Jacobian each of
whose in-range entries is either exactly zero or strictly exceeds machine
epsilon times the Jacobian's infinity norm in magnitude, the derivative
array produced by `computeDerivative` with the sparsity skip equals the
array produced by performing all six multiply-add terms unconditionally; in
general the skip drops exactly the terms whose coefficient magnitude is
positive but at most the threshold, and is then observable. -/
theorem skip_unobservable_above_threshold (b : GaussianModelBuilder)
    (jac : AffineCoeff → Nat → ℝ) (jacCols : Nat) (add : Bool)
    (prior : Nat → Nat → ℝ)
    (h : ∀ k n, n < jacCols →
      jac k n = 0 ∨ |jac k n| > machineEps * jacNormInf jac jacCols) :
    GaussianModelBuilder.derivOutput b jac jacCols add prior =
      GaussianModelBuilder.derivOutputFull b jac jacCols add prior := by
  funext m n
  unfold GaussianModelBuilder.derivOutput GaussianModelBuilder.derivOutputFull
  congr 1
  by_cases hn : n < jacCols
  · rw [if_pos hn, if_pos hn]
    exact skipSum_eq_fullSum b jac jacCols m n (fun k => h k n hn)
  · rw [if_neg hn, if_neg hn]

/-- Witness for `skip_unobservable_above_threshold` at the unit Jacobian. -/
theorem skip_unobservable_above_threshold_witness :
    (∀ k n, n < 1 →
      unitJac k n = 0 ∨ |unitJac k n| > machineEps * jacNormInf unitJac 1) ∧
    GaussianModelBuilder.derivOutput bOne unitJac 1 false (fun _ _ => 0) =
      GaussianModelBuilder.derivOutputFull bOne unitJac 1 false (fun _ _ => 0) := by
  have hcond : ∀ k n, n < 1 →
      unitJac k n = 0 ∨ |unitJac k n| > machineEps * jacNormInf unitJac 1 := by
    intro k n hn
    interval_cases n
    rw [jacNormInf_unitJac]
    cases k
    case X =>
      right
      unfold unitJac machineEps
      norm_num
    all_goals
      left
      unfold unitJac
      simp only [coeff_XX_ne, coeff_YX_ne, coeff_XY_ne, coeff_YY_ne, coeff_Y_ne,
        false_and, if_false]
  exact ⟨hcond,
    skip_unobservable_above_threshold bOne unitJac 1 false (fun _ _ => 0) hcond⟩

end MultiShapelet
